import Mathlib

/-!
Verification development for the `SceneExtension` frame-lifecycle core of the
foxglove-studio 3D scene renderer (source file `SceneExtension.ts`).

The source class is embedded shallowly: the mutable `SceneExtension` object and
its `Renderer` collaborator become explicit state records, each method becomes
a pure function from the old state to the new state, and every externally
visible side effect (renderable disposal, child detachment, configuration
writes, settings-sink pushes, error-sink operations, Transform-Tree queries,
Pose-Updater invocations) is additionally recorded as an `Event` in an emitted
trace, in the order the source performs it.

Collaborators that are only imported by the source file (`updatePose`, the
`LayerErrors` error sink, `missingTransformMessage`, lodash `set`/`unset`, the
settings sink and the microtask queue) are modelled from the specification;
each such definition carries a doc comment saying so.
-/

namespace Fox

/-- An opaque coordinate-frame identifier (`AnyFrameId` in the source). -/
abbrev FrameId := String

/-- A settings-tree path (`Path` from `LayerErrors`). -/
abbrev Path := List String

/-- Nanosecond timestamps (`bigint` in the source; playback times are
nonnegative integer nanoseconds per the spec). -/
abbrev Time := Nat

structure Vec3 where
  x : Int
  y : Int
  z : Int
deriving DecidableEq, Repr

structure Quat where
  x : Int
  y : Int
  z : Int
  w : Int
deriving DecidableEq, Repr

/-- A position/orientation pair, as written onto a renderable. -/
structure Pose where
  position : Vec3
  orientation : Quat
deriving DecidableEq, Repr

def Vec3.add (a b : Vec3) : Vec3 :=
  ⟨a.x + b.x, a.y + b.y, a.z + b.z⟩

def Quat.mul (a b : Quat) : Quat :=
  ⟨a.w * b.x + a.x * b.w + a.y * b.z - a.z * b.y,
   a.w * b.y - a.x * b.z + a.y * b.w + a.z * b.x,
   a.w * b.z + a.x * b.y - a.y * b.x + a.z * b.w,
   a.w * b.w - a.x * b.x - a.y * b.y - a.z * b.z⟩

/-- Modelled from the spec: rigid-transform composition used by the Pose
Updater. The spec leaves the numeric details of pose resolution open (an
explicit open question); what matters for the claims is that composition is a
deterministic total function of its arguments, so translation is composed
additively and orientation by quaternion multiplication. -/
def Pose.compose (t p : Pose) : Pose :=
  ⟨t.position.add p.position, t.orientation.mul p.orientation⟩

/-- A loosely-typed configuration value, distinguishing `undefined` and `null`
because the source tests `value == undefined` with loose equality. -/
inductive JSValue where
  | undefinedV
  | nullV
  | boolV (b : Bool)
  | numV (n : Int)
  | strV (s : String)
deriving DecidableEq, Repr

/-- `value == undefined` in the source: loose equality matches both
`undefined` and `null`. -/
def JSValue.isNullish : JSValue → Bool
  | .undefinedV => true
  | .nullV => true
  | _ => false

/-- Modelled from the spec: a settings-tree UI node contributed at a path
(`SettingsTreeEntry` from `SettingsManager`, not in the excerpt). Its internal
structure is irrelevant to the claims. -/
structure SettingsTreeEntry where
  path : Path
  label : String
deriving DecidableEq, Repr

/-- One error currently reported in the error sink. -/
structure ErrorEntry where
  path : Path
  kind : String
  message : String
deriving DecidableEq, Repr

/-- Modelled from the spec: the path-indexed error table (`LayerErrors`, not in
the excerpt) with operations `add(path, errorKind, message)` (add/replace: at
most one current error per path and kind), `remove(path, errorKind)` and
`clearPath(path)`. -/
structure LayerErrors where
  entries : List ErrorEntry
deriving DecidableEq, Repr

/-- Modelled from the spec: `add` replaces any existing error with the same
path and kind rather than duplicating it. -/
def LayerErrors.add (e : LayerErrors) (p : Path) (k : String) (m : String) : LayerErrors :=
  ⟨⟨p, k, m⟩ :: e.entries.filter (fun x => !decide (x.path = p ∧ x.kind = k))⟩

/-- Modelled from the spec: `remove` deletes the error with the given path and
kind, if present. -/
def LayerErrors.remove (e : LayerErrors) (p : Path) (k : String) : LayerErrors :=
  ⟨e.entries.filter (fun x => !decide (x.path = p ∧ x.kind = k))⟩

/-- Modelled from the spec: `clearPath` deletes every error at the given path,
of any kind. -/
def LayerErrors.clearPath (e : LayerErrors) (p : Path) : LayerErrors :=
  ⟨e.entries.filter (fun x => !decide (x.path = p))⟩

/-- The current error message at a path and kind, if any. -/
def LayerErrors.getAt (e : LayerErrors) (p : Path) (k : String) : Option String :=
  (e.entries.find? (fun x => decide (x.path = p ∧ x.kind = k))).map (fun x => x.message)

/-- How many errors the sink currently holds at a path and kind. -/
def LayerErrors.countAt (e : LayerErrors) (p : Path) (k : String) : Nat :=
  (e.entries.filter (fun x => decide (x.path = p ∧ x.kind = k))).length

/-- Modelled from the spec: the settings sink (`setNodesForKey`) plus the error
sink, grouped as `renderer.settings` is in the source. -/
structure SettingsManager where
  nodesByKey : List (String × List SettingsTreeEntry)
  errors : LayerErrors
deriving DecidableEq, Repr

/-- Modelled from the spec: keyed registration `setNodesForKey(extensionId,
nodes)`; replaces any previous registration for the same key. -/
def SettingsManager.setNodesForKey (s : SettingsManager) (key : String)
    (nodes : List SettingsTreeEntry) : SettingsManager :=
  { s with nodesByKey := (key, nodes) :: s.nodesByKey.filter (fun e => !decide (e.1 = key)) }

/-- The nodes currently registered for a key, if any. -/
def SettingsManager.getNodesForKey (s : SettingsManager) (key : String) :
    Option (List SettingsTreeEntry) :=
  (s.nodesByKey.find? (fun e => decide (e.1 = key))).map (fun e => e.2)

/-- Modelled from the spec: the Transform Tree answers "transform frame A at
time T1 to frame B at time T2" queries from its time-stamped contents, failing
when no connecting path exists. Contents are a finite table of resolved
transforms keyed by (source frame, source time, destination frame, destination
time). -/
structure TransformTree where
  entries : List ((FrameId × Time × FrameId × Time) × Pose)
deriving DecidableEq, Repr

def TransformTree.lookup (t : TransformTree) (src : FrameId) (srcTime : Time)
    (dst : FrameId) (dstTime : Time) : Option Pose :=
  (t.entries.find? (fun e => decide (e.1 = (src, srcTime, dst, dstTime)))).map (fun e => e.2)

/-- The per-renderable persisted settings consulted by `startFrame`:
`visible` and the optional `frameLocked` (`none` embeds `undefined`). -/
structure RenderableSettings where
  visible : Bool
  frameLocked : Option Bool
deriving DecidableEq, Repr

/-- `BaseUserData` of a renderable: coordinate frame, source-message time,
settings path used for error reporting, persisted settings, and the pose the
source message specified in its own frame. -/
structure BaseUserData where
  frameId : FrameId
  messageTime : Time
  settingsPath : Path
  settings : RenderableSettings
  pose : Pose
deriving DecidableEq, Repr

/-- A `Renderable`: a THREE.Object3D with `userData`, the object-level
`visible` flag, an identity used by `this.remove(renderable)` (`nodeId`), and
the resolved render-frame pose written by the Pose Updater (`renderPose`, the
object's position/quaternion). -/
structure Renderable where
  nodeId : String
  userData : BaseUserData
  visible : Bool
  renderPose : Pose
deriving DecidableEq, Repr

/-- The `Renderer` collaborator state visible to this core: the read-only
`transformTree`, the `settings` manager (settings sink + error sink), and the
panel configuration document written through `updateConfig`. The configuration
is embedded as a finite map from full paths to values. -/
structure RendererState where
  transformTree : TransformTree
  settings : SettingsManager
  config : List (Path × JSValue)
deriving DecidableEq, Repr

/-- The `SceneExtension` object state: its identifier, the `renderables` map
(embedded as an association list in insertion order, as a JS `Map` iterates),
its THREE.Object3D `children` (by node identity), and the virtual
`settingsNodes()` method. The base-class implementation of `settingsNodes()`
returns `[]`; subclasses override it, so the embedding carries the method as a
function of the renderable map and the configuration. -/
structure SceneExtension where
  extensionId : String
  renderables : List (String × Renderable)
  children : List String
  settingsNodesFn : List (String × Renderable) → List (Path × JSValue) → List SettingsTreeEntry

/-- The base-class `settingsNodes()` implementation: an empty list. -/
def baseSettingsNodes : List (String × Renderable) → List (Path × JSValue) →
    List SettingsTreeEntry :=
  fun _ _ => []

/-- Every externally visible side effect of an embedded method call, recorded
in the order the source performs it. -/
inductive Event where
  | disposeRenderable (key : String)
  | removeChild (nodeId : String)
  | setNodes (extensionId : String) (nodes : List SettingsTreeEntry)
  | configSet (path : Path) (value : JSValue)
  | configUnset (path : Path)
  | errorAdd (path : Path) (kind : String) (message : String)
  | errorRemove (path : Path) (kind : String)
  | errorClearPath (path : Path)
  | treeQuery (srcFrame : FrameId) (srcTime : Time) (dstFrame : FrameId) (dstTime : Time)
  | poseUpdateCall (key : String) (renderFrame fixedFrame srcFrame : FrameId)
      (currentTime srcTime : Time)
deriving DecidableEq, Repr

/-- The `MISSING_TRANSFORM` error kind (imported constant in the source). -/
def MISSING_TRANSFORM : String := "MISSING_TRANSFORM"

/-- Modelled from the spec: `missingTransformMessage` (not in the excerpt)
produces a message naming the render frame, the fixed frame and the
renderable's own frame. -/
def missingTransformMessage (renderFrameId fixedFrameId frameId : FrameId) : String :=
  "Missing transform from frame <" ++ frameId ++ "> to frame <" ++ renderFrameId ++
    "> (fixed frame <" ++ fixedFrameId ++ ">)"

/-- Modelled from the spec: the Pose Updater contract (`updatePose`, not in the
excerpt). It resolves the chain sourceFrame@sourceTime → fixedFrame →
renderFrame@destTime by querying the Transform Tree through the fixed frame; on
success it writes the resulting position and orientation onto the renderable
and returns success, on failure it leaves the renderable's pose untouched and
returns failure. It is a deterministic total function and its tree queries are
recorded as events. -/
def updatePose (r : Renderable) (tree : TransformTree)
    (renderFrameId fixedFrameId srcFrameId : FrameId) (dstTime srcTime : Time) :
    Renderable × Bool × List Event :=
  let q1 := tree.lookup srcFrameId srcTime fixedFrameId dstTime
  let q2 := tree.lookup fixedFrameId dstTime renderFrameId dstTime
  let evs := [Event.treeQuery srcFrameId srcTime fixedFrameId dstTime,
              Event.treeQuery fixedFrameId dstTime renderFrameId dstTime]
  match q1, q2 with
  | some t1, some t2 =>
      ({ r with renderPose := Pose.compose t2 (Pose.compose t1 r.userData.pose) }, true, evs)
  | _, _ => (r, false, evs)

/-- The source time chosen by `startFrame` for a renderable:
`const frameLocked = renderable.userData.settings.frameLocked ?? true;`
`const srcTime = frameLocked ? currentTime : renderable.userData.messageTime;` -/
def srcTimeOf (r : Renderable) (currentTime : Time) : Time :=
  if r.userData.settings.frameLocked.getD true then currentTime else r.userData.messageTime

/-- The body of the `startFrame` loop for one entry of `this.renderables`,
translated from the source: set the object `visible` flag from the persisted
settings; if not visible, clear the layer errors at the renderable's settings
path and skip it; otherwise invoke the Pose Updater and add or remove the
`MISSING_TRANSFORM` error accordingly. Returns the updated renderable and the
side effects in source order. -/
def startFrameStep (tree : TransformTree) (currentTime : Time)
    (renderFrameId fixedFrameId : FrameId) (key : String) (r : Renderable) :
    Renderable × List Event :=
  let path := r.userData.settingsPath
  let r1 : Renderable := { r with visible := r.userData.settings.visible }
  if !r1.visible then
    (r1, [Event.errorClearPath path])
  else
    let srcTime := srcTimeOf r currentTime
    let frameId := r.userData.frameId
    let res := updatePose r1 tree renderFrameId fixedFrameId frameId currentTime srcTime
    let callEv := Event.poseUpdateCall key renderFrameId fixedFrameId frameId currentTime srcTime
    if !res.2.1 then
      (res.1, callEv :: res.2.2 ++
        [Event.errorAdd path MISSING_TRANSFORM
          (missingTransformMessage renderFrameId fixedFrameId frameId)])
    else
      (res.1, callEv :: res.2.2 ++ [Event.errorRemove path MISSING_TRANSFORM])

/-- Replay one recorded event against the error sink; events that are not
error-sink operations leave it unchanged. -/
def applyErrEvent (e : LayerErrors) : Event → LayerErrors
  | .errorAdd p k m => e.add p k m
  | .errorRemove p k => e.remove p k
  | .errorClearPath p => e.clearPath p
  | _ => e

/-- Replay a trace of events against the error sink, in order. -/
def replayErrors (t : List Event) (e : LayerErrors) : LayerErrors :=
  t.foldl applyErrEvent e

/-- `startFrame(currentTime, renderFrameId, fixedFrameId)`: iterates
`this.renderables`, runs `startFrameStep` on each entry, and applies the
error-sink operations to `renderer.settings.errors` in trace order. Returns
the new extension state, the new renderer state and the full event trace. -/
def SceneExtension.startFrame (ext : SceneExtension) (st : RendererState)
    (currentTime : Time) (renderFrameId fixedFrameId : FrameId) :
    SceneExtension × RendererState × List Event :=
  let steps := ext.renderables.map
    (fun kr => (kr.1, startFrameStep st.transformTree currentTime renderFrameId fixedFrameId kr.1 kr.2))
  let trace := steps.flatMap (fun ks => ks.2.2)
  ({ ext with renderables := steps.map (fun ks => (ks.1, ks.2.1)) },
   { st with settings := { st.settings with errors := replayErrors trace st.settings.errors } },
   trace)

/-- `updateSettingsTree()`: pushes `settingsNodes()` into the settings sink
keyed by this extension's identifier. -/
def SceneExtension.updateSettingsTree (ext : SceneExtension) (st : RendererState) :
    RendererState × List Event :=
  let nodes := ext.settingsNodesFn ext.renderables st.config
  ({ st with settings := st.settings.setNodesForKey ext.extensionId nodes },
   [Event.setNodes ext.extensionId nodes])

/-- `dispose()`: calls `renderable.dispose()` on every owned renderable, sets
`this.children.length = 0`, and clears the renderable map. It does not touch
the renderer at all. -/
def SceneExtension.dispose (ext : SceneExtension) (st : RendererState) :
    SceneExtension × RendererState × List Event :=
  ({ ext with renderables := [], children := [] },
   st,
   ext.renderables.map (fun kr => Event.disposeRenderable kr.1))

/-- `removeAllRenderables()`: disposes every renderable and removes it from the
children (`this.remove(renderable)`), clears the renderable map, then calls
`updateSettingsTree()`. -/
def SceneExtension.removeAllRenderables (ext : SceneExtension) (st : RendererState) :
    SceneExtension × RendererState × List Event :=
  let ext1 : SceneExtension :=
    { ext with
      renderables := [],
      children := ext.renderables.foldl (fun cs kr => cs.erase kr.2.nodeId) ext.children }
  let r1 := ext1.updateSettingsTree st
  (ext1, r1.1,
   ext.renderables.flatMap
     (fun kr => [Event.disposeRenderable kr.1, Event.removeChild kr.2.nodeId]) ++ r1.2)

/-- Modelled from the spec: lodash `set(draft, path, value)` on the
configuration document, embedded as replace-at-path on the path-keyed map. -/
def configSet (cfg : List (Path × JSValue)) (p : Path) (v : JSValue) :
    List (Path × JSValue) :=
  (p, v) :: cfg.filter (fun e => !decide (e.1 = p))

/-- Modelled from the spec: lodash `unset(draft, path)` on the configuration
document: the key at the path ends up absent. -/
def configUnset (cfg : List (Path × JSValue)) (p : Path) : List (Path × JSValue) :=
  cfg.filter (fun e => !decide (e.1 = p))

/-- The value currently stored in the configuration at a path, if any. -/
def configGet (cfg : List (Path × JSValue)) (p : Path) : Option JSValue :=
  (cfg.find? (fun e => decide (e.1 = p))).map (fun e => e.2)

/-- `saveSetting(path, value)`: updates the configuration through
`renderer.updateConfig` — `unset` when `value == undefined` (loose equality,
so also for `null`), `set` otherwise — and then calls `updateSettingsTree()`. -/
def SceneExtension.saveSetting (ext : SceneExtension) (st : RendererState)
    (path : Path) (value : JSValue) : RendererState × List Event :=
  let cfg1 := if value.isNullish then configUnset st.config path else configSet st.config path value
  let st1 : RendererState := { st with config := cfg1 }
  let r2 := ext.updateSettingsTree st1
  (r2.1,
   (if value.isNullish then Event.configUnset path else Event.configSet path value) :: r2.2)

/-- Modelled from the spec: the single-threaded event loop's deferred tasks.
The only task this core ever schedules is the constructor's deferred
`updateSettingsTree()` (`queueMicrotask` in the source). -/
inductive Microtask where
  | deferredUpdateSettingsTree
deriving DecidableEq

/-- Modelled from the spec: a world combining one extension, its renderer and
the pending microtask queue of the single-threaded scheduler. -/
structure SceneWorld where
  ext : SceneExtension
  renderer : RendererState
  microtasks : List Microtask

/-- The `SceneExtension` constructor: stores the identifier, starts with an
empty renderable map and no children, and schedules a deferred
`updateSettingsTree()` call (`queueMicrotask(() => this.updateSettingsTree())`)
without touching the renderer synchronously. -/
def constructSceneExtension (extensionId : String)
    (settingsNodesFn : List (String × Renderable) → List (Path × JSValue) →
      List SettingsTreeEntry)
    (st : RendererState) : SceneWorld :=
  { ext := { extensionId := extensionId, renderables := [], children := [],
             settingsNodesFn := settingsNodesFn },
    renderer := st,
    microtasks := [Microtask.deferredUpdateSettingsTree] }

/-- Modelled from the spec: running one pending microtask. -/
def runMicrotask (w : SceneWorld) : Microtask → SceneWorld
  | .deferredUpdateSettingsTree => { w with renderer := (w.ext.updateSettingsTree w.renderer).1 }

/-- Modelled from the spec: the scheduler drains all pending microtasks after
the current synchronous task (the constructing call stack) unwinds and before
the next frame tick. -/
def drainMicrotasks (w : SceneWorld) : SceneWorld :=
  { w.microtasks.foldl runMicrotask w with microtasks := [] }

/-- Modelled from the spec: one turn of the host render loop — pending
microtasks run first, then the frame update calls `startFrame`. -/
def hostRenderFrame (w : SceneWorld) (currentTime : Time)
    (renderFrameId fixedFrameId : FrameId) : SceneWorld × List Event :=
  let w1 := drainMicrotasks w
  let res := w1.ext.startFrame w1.renderer currentTime renderFrameId fixedFrameId
  ({ w1 with ext := res.1, renderer := res.2.1 }, res.2.2)

end Fox

namespace Fox

/-! ### Closed form of error-sink replay

Every error-sink operation has the shape "prepend some fresh entries, then
filter the old entries"; replaying a whole trace therefore also has that
shape. `traceAdds` collects the surviving freshly-added entries and
`traceKeep` is the residual filter applied to the pre-existing entries. -/

/-- Entries freshly added to the error sink by one event. -/
def evAdds : Event → List ErrorEntry
  | .errorAdd p k m => [⟨p, k, m⟩]
  | _ => []

/-- Which pre-existing entries survive one event. -/
def evKeep : Event → ErrorEntry → Bool
  | .errorAdd p k _, x => !decide (x.path = p ∧ x.kind = k)
  | .errorRemove p k, x => !decide (x.path = p ∧ x.kind = k)
  | .errorClearPath p, x => !decide (x.path = p)
  | _, _ => true

/-- Which pre-existing entries survive a whole trace. -/
def traceKeep : List Event → ErrorEntry → Bool
  | [], _ => true
  | ev :: t, x => evKeep ev x && traceKeep t x

/-- The entries a whole trace leaves freshly added, in final sink order. -/
def traceAdds : List Event → List ErrorEntry
  | [] => []
  | ev :: t => traceAdds t ++ (evAdds ev).filter (fun x => traceKeep t x)

/-- Whether an event touches the error-sink cell at path `p` and kind `k`. -/
def evTouches (p : Path) (k : String) : Event → Bool
  | .errorAdd q kk _ => decide (q = p ∧ kk = k)
  | .errorRemove q kk => decide (q = p ∧ kk = k)
  | .errorClearPath q => decide (q = p)
  | _ => false

/-! ### Concrete fixtures used to exercise the theorems -/

/-- A visible, frame-locked renderable in frame `lidar`. -/
def rLidar : Renderable :=
  { nodeId := "node-lidar"
  , userData :=
    { frameId := "lidar"
    , messageTime := 500
    , settingsPath := ["topics", "lidar"]
    , settings := { visible := true, frameLocked := some true }
    , pose := ⟨⟨1, 2, 3⟩, ⟨0, 0, 0, 1⟩⟩ }
  , visible := true
  , renderPose := ⟨⟨0, 0, 0⟩, ⟨0, 0, 0, 1⟩⟩ }

/-- A renderable whose persisted settings hide it. -/
def rHidden : Renderable :=
  { nodeId := "node-hidden"
  , userData :=
    { frameId := "imu"
    , messageTime := 700
    , settingsPath := ["topics", "hidden"]
    , settings := { visible := false, frameLocked := none }
    , pose := ⟨⟨4, 5, 6⟩, ⟨0, 0, 0, 1⟩⟩ }
  , visible := true
  , renderPose := ⟨⟨7, 8, 9⟩, ⟨0, 0, 0, 1⟩⟩ }

/-- A two-renderable extension. -/
def extW : SceneExtension :=
  { extensionId := "foxglove.TestMarkers"
  , renderables := [("lidar", rLidar), ("hidden", rHidden)]
  , children := ["node-lidar", "node-hidden"]
  , settingsNodesFn := fun rs _ => rs.map (fun kr => ⟨["topics", kr.1], kr.1⟩) }

/-- A renderer state with an empty Transform Tree (every pose resolution
fails) and a pre-existing `MISSING_TRANSFORM` error at the hidden
renderable's path. -/
def stEmpty : RendererState :=
  { transformTree := ⟨[]⟩
  , settings :=
    { nodesByKey := []
    , errors := ⟨[⟨["topics", "hidden"], MISSING_TRANSFORM, "stale"⟩]⟩ }
  , config := [] }

theorem filter_filter_and {α : Type} (p q : α → Bool) (l : List α) :
    (l.filter p).filter q = l.filter (fun a => p a && q a) := by
  induction l with
  | nil => rfl
  | cons a l ih =>
    cases hp : p a <;> cases hq : q a <;>
      simp [List.filter_cons, hp, hq, ih]

theorem applyErrEvent_eq (e : LayerErrors) (ev : Event) :
    applyErrEvent e ev = ⟨evAdds ev ++ e.entries.filter (fun x => evKeep ev x)⟩ := by
  cases ev <;>
    simp [applyErrEvent, evAdds, evKeep, LayerErrors.add, LayerErrors.remove,
      LayerErrors.clearPath, List.filter_true]

theorem replayErrors_closed (t : List Event) :
    ∀ e : LayerErrors, replayErrors t e = ⟨traceAdds t ++ e.entries.filter (fun x => traceKeep t x)⟩ := by
  induction t with
  | nil =>
    intro e
    simp [replayErrors, traceAdds, traceKeep, List.filter_true]
  | cons ev t ih =>
    intro e
    show replayErrors t (applyErrEvent e ev) = _
    rw [ih, applyErrEvent_eq]
    simp [traceAdds, traceKeep, List.filter_append, filter_filter_and, List.append_assoc,
      Bool.and_comm]

theorem evAdds_dead (ev : Event) (x : ErrorEntry) (hx : x ∈ evAdds ev) :
    evKeep ev x = false := by
  cases ev <;> simp [evAdds] at hx
  case errorAdd p k m =>
    subst hx
    simp [evKeep]

theorem traceAdds_dead (t : List Event) : ∀ x ∈ traceAdds t, traceKeep t x = false := by
  induction t with
  | nil => simp [traceAdds]
  | cons ev t ih =>
    intro x hx
    rw [traceAdds] at hx
    rcases List.mem_append.mp hx with hx | hx
    · simp [traceKeep, ih x hx]
    · rcases List.mem_filter.mp hx with ⟨hmem, _⟩
      simp [traceKeep, evAdds_dead ev x hmem]

theorem filter_self {α : Type} (p : α → Bool) (l : List α) :
    (l.filter p).filter p = l.filter p := by
  rw [filter_filter_and]
  exact List.filter_congr (fun a _ => Bool.and_self (p a))

/-- Replaying one trace twice against the error sink gives the same sink as
replaying it once. -/
theorem replayErrors_idem (t : List Event) (e : LayerErrors) :
    replayErrors t (replayErrors t e) = replayErrors t e := by
  simp only [replayErrors_closed]
  have hdead : (traceAdds t).filter (fun x => traceKeep t x) = [] :=
    List.filter_eq_nil_iff.mpr (fun x hx => by simp [traceAdds_dead t x hx])
  simp [List.filter_append, hdead, filter_self]

theorem find_filter_of_imp {α : Type} (pr keep : α → Bool)
    (h : ∀ x, pr x = true → keep x = true) :
    ∀ l : List α, (l.filter keep).find? pr = l.find? pr := by
  intro l
  induction l with
  | nil => rfl
  | cons a l ih =>
    cases hk : keep a
    · have hp : pr a = false := by
        cases hpa : pr a
        · rfl
        · rw [h a hpa] at hk
          exact absurd hk (by simp)
      simp [List.filter_cons, hk, List.find?_cons, hp, ih]
    · cases hpa : pr a <;> simp [List.filter_cons, hk, List.find?_cons, hpa, ih]

theorem filter_filter_of_imp {α : Type} (pr keep : α → Bool)
    (h : ∀ x, pr x = true → keep x = true) (l : List α) :
    (l.filter keep).filter pr = l.filter pr := by
  rw [filter_filter_and]
  apply List.filter_congr
  intro a _
  cases hpa : pr a
  · simp
  · simp [h a hpa]

theorem applyErrEvent_untouched (e : LayerErrors) (ev : Event) (p : Path) (k : String)
    (h : evTouches p k ev = false) :
    (applyErrEvent e ev).getAt p k = e.getAt p k ∧
      (applyErrEvent e ev).countAt p k = e.countAt p k := by
  have himp : ∀ x : ErrorEntry, (fun y : ErrorEntry => decide (y.path = p ∧ y.kind = k)) x = true →
      (fun y : ErrorEntry => evKeep ev y) x = true := by
    intro x hx
    rcases of_decide_eq_true hx with ⟨hxp, hxk⟩
    cases ev with
    | errorAdd q kk m =>
      have hne : ¬(q = p ∧ kk = k) := decide_eq_false_iff_not.mp h
      simp only [evKeep, Bool.not_eq_true', decide_eq_false_iff_not]
      intro hc
      exact hne ⟨hc.1.symm.trans hxp, hc.2.symm.trans hxk⟩
    | errorRemove q kk =>
      have hne : ¬(q = p ∧ kk = k) := decide_eq_false_iff_not.mp h
      simp only [evKeep, Bool.not_eq_true', decide_eq_false_iff_not]
      intro hc
      exact hne ⟨hc.1.symm.trans hxp, hc.2.symm.trans hxk⟩
    | errorClearPath q =>
      have hne : ¬(q = p) := decide_eq_false_iff_not.mp h
      simp only [evKeep, Bool.not_eq_true', decide_eq_false_iff_not]
      intro hc
      exact hne (hc.symm.trans hxp)
    | disposeRenderable key => rfl
    | removeChild nodeId => rfl
    | setNodes extensionId nodes => rfl
    | configSet path value => rfl
    | configUnset path => rfl
    | treeQuery a b c d => rfl
    | poseUpdateCall a b c d ee f => rfl
  have hfind : (evAdds ev).find? (fun x => decide (x.path = p ∧ x.kind = k)) = none := by
    cases ev <;> try rfl
    case errorAdd q kk m =>
      have hf : (decide ((q : Path) = p) && decide ((kk : String) = k)) = false := by
        have hh : decide ((q : Path) = p ∧ (kk : String) = k) = false := h
        simpa using hh
      simp [evAdds, List.find?_cons, hf]
  have hfilt : (evAdds ev).filter (fun x => decide (x.path = p ∧ x.kind = k)) = [] := by
    cases ev <;> try rfl
    case errorAdd q kk m =>
      have hf : (decide ((q : Path) = p) && decide ((kk : String) = k)) = false := by
        have hh : decide ((q : Path) = p ∧ (kk : String) = k) = false := h
        simpa using hh
      simp [evAdds, List.filter_cons, hf]
  rw [applyErrEvent_eq]
  constructor
  · show ((((evAdds ev ++ _).find? _)).map _) = _
    rw [List.find?_append, hfind, Option.none_or,
      find_filter_of_imp (fun y : ErrorEntry => decide (y.path = p ∧ y.kind = k))
        (fun y : ErrorEntry => evKeep ev y) himp]
    rfl
  · show ((evAdds ev ++ _).filter _).length = _
    rw [List.filter_append, hfilt, List.nil_append,
      filter_filter_of_imp (fun y : ErrorEntry => decide (y.path = p ∧ y.kind = k))
        (fun y : ErrorEntry => evKeep ev y) himp]
    rfl

/-- Events that do not touch the cell at path `p`, kind `k` leave both its
current message and its entry count unchanged, wherever they sit in a trace. -/
theorem replayErrors_untouched (t : List Event) (p : Path) (k : String)
    (h : ∀ ev ∈ t, evTouches p k ev = false) :
    ∀ e : LayerErrors, (replayErrors t e).getAt p k = e.getAt p k ∧
      (replayErrors t e).countAt p k = e.countAt p k := by
  induction t with
  | nil => intro e; exact ⟨rfl, rfl⟩
  | cons ev t ih =>
    intro e
    have h1 := applyErrEvent_untouched e ev p k (h ev (List.mem_cons_self ev t))
    have h2 := ih (fun x hx => h x (List.mem_cons_of_mem ev hx)) (applyErrEvent e ev)
    show (replayErrors t (applyErrEvent e ev)).getAt p k = _ ∧
      (replayErrors t (applyErrEvent e ev)).countAt p k = _
    exact ⟨h2.1.trans h1.1, h2.2.trans h1.2⟩

theorem replayErrors_append (a b : List Event) (e : LayerErrors) :
    replayErrors (a ++ b) e = replayErrors b (replayErrors a e) :=
  List.foldl_append applyErrEvent e a b

theorem flatMap_map {α β γ : Type} (l : List α) (f : α → β) (g : β → List γ) :
    (l.map f).flatMap g = l.flatMap (fun x => g (f x)) := by
  induction l with
  | nil => rfl
  | cons a l ih => simp [List.flatMap_cons, ih]

/-! ### Basic facts about the Pose Updater and the per-renderable step -/

theorem updatePose_ok_indep (r r' : Renderable) (tree : TransformTree)
    (rf ff fid : FrameId) (ct st : Time) :
    (updatePose r tree rf ff fid ct st).2.1 = (updatePose r' tree rf ff fid ct st).2.1 := by
  unfold updatePose
  cases h1 : tree.lookup fid st ff ct <;> cases h2 : tree.lookup ff ct rf ct <;> simp [h1, h2]

theorem updatePose_fail_pose (r : Renderable) (tree : TransformTree)
    (rf ff fid : FrameId) (ct st : Time)
    (h : (updatePose r tree rf ff fid ct st).2.1 = false) :
    (updatePose r tree rf ff fid ct st).1 = r := by
  unfold updatePose at h ⊢
  cases h1 : tree.lookup fid st ff ct <;> cases h2 : tree.lookup ff ct rf ct <;>
    simp [h1, h2] at h ⊢

theorem updatePose_userData (r : Renderable) (tree : TransformTree)
    (rf ff fid : FrameId) (ct st : Time) :
    (updatePose r tree rf ff fid ct st).1.userData = r.userData := by
  unfold updatePose
  cases h1 : tree.lookup fid st ff ct <;> cases h2 : tree.lookup ff ct rf ct <;> simp [h1, h2]

theorem updatePose_events (r : Renderable) (tree : TransformTree)
    (rf ff fid : FrameId) (ct st : Time) :
    (updatePose r tree rf ff fid ct st).2.2 =
      [Event.treeQuery fid st ff ct, Event.treeQuery ff ct rf ct] := by
  unfold updatePose
  cases h1 : tree.lookup fid st ff ct <;> cases h2 : tree.lookup ff ct rf ct <;> simp [h1, h2]

/-- Re-running the Pose Updater on its own output with the same tree and
arguments reproduces the same renderable, verdict and queries (the spec's
determinism requirement: the resolved pose is a function of `userData` and the
tree only, and `userData` is never written by the updater). -/
theorem updatePose_idem (r : Renderable) (tree : TransformTree)
    (rf ff fid : FrameId) (ct st : Time) :
    updatePose (updatePose r tree rf ff fid ct st).1 tree rf ff fid ct st =
      updatePose r tree rf ff fid ct st := by
  unfold updatePose
  cases h1 : tree.lookup fid st ff ct <;> cases h2 : tree.lookup ff ct rf ct <;> simp [h1, h2]

theorem srcTimeOf_congr (r r' : Renderable) (ct : Time) (h : r'.userData = r.userData) :
    srcTimeOf r' ct = srcTimeOf r ct := by
  unfold srcTimeOf
  rw [h]

theorem startFrameStep_invisible (tree : TransformTree) (ct : Time) (rf ff : FrameId)
    (k : String) (r : Renderable) (hv : r.userData.settings.visible = false) :
    startFrameStep tree ct rf ff k r =
      ({ r with visible := false }, [Event.errorClearPath r.userData.settingsPath]) := by
  simp [startFrameStep, hv]

theorem startFrameStep_visible_fail (tree : TransformTree) (ct : Time) (rf ff : FrameId)
    (k : String) (r : Renderable) (hv : r.userData.settings.visible = true)
    (hf : (updatePose r tree rf ff r.userData.frameId ct (srcTimeOf r ct)).2.1 = false) :
    startFrameStep tree ct rf ff k r =
      ({ r with visible := true },
       [Event.poseUpdateCall k rf ff r.userData.frameId ct (srcTimeOf r ct),
        Event.treeQuery r.userData.frameId (srcTimeOf r ct) ff ct,
        Event.treeQuery ff ct rf ct,
        Event.errorAdd r.userData.settingsPath MISSING_TRANSFORM
          (missingTransformMessage rf ff r.userData.frameId)]) := by
  unfold updatePose at hf
  unfold startFrameStep updatePose
  cases h1 : tree.lookup r.userData.frameId (srcTimeOf r ct) ff ct <;>
    cases h2 : tree.lookup ff ct rf ct <;>
      simp [h1, h2, hv] at hf ⊢

theorem startFrameStep_visible_ok (tree : TransformTree) (ct : Time) (rf ff : FrameId)
    (k : String) (r : Renderable) (hv : r.userData.settings.visible = true)
    (hok : (updatePose r tree rf ff r.userData.frameId ct (srcTimeOf r ct)).2.1 = true) :
    startFrameStep tree ct rf ff k r =
      ((updatePose { r with visible := true } tree rf ff r.userData.frameId ct
          (srcTimeOf r ct)).1,
       [Event.poseUpdateCall k rf ff r.userData.frameId ct (srcTimeOf r ct),
        Event.treeQuery r.userData.frameId (srcTimeOf r ct) ff ct,
        Event.treeQuery ff ct rf ct,
        Event.errorRemove r.userData.settingsPath MISSING_TRANSFORM]) := by
  unfold updatePose at hok
  unfold startFrameStep updatePose
  cases h1 : tree.lookup r.userData.frameId (srcTimeOf r ct) ff ct <;>
    cases h2 : tree.lookup ff ct rf ct <;>
      simp [h1, h2, hv] at hok ⊢

theorem startFrameStep_userData (tree : TransformTree) (ct : Time) (rf ff : FrameId)
    (k : String) (r : Renderable) :
    (startFrameStep tree ct rf ff k r).1.userData = r.userData := by
  cases hv : r.userData.settings.visible
  · rw [startFrameStep_invisible tree ct rf ff k r hv]
  · cases hok : (updatePose r tree rf ff r.userData.frameId ct (srcTimeOf r ct)).2.1
    · rw [startFrameStep_visible_fail tree ct rf ff k r hv hok]
    · rw [startFrameStep_visible_ok tree ct rf ff k r hv hok]
      exact updatePose_userData _ tree rf ff _ ct _

/-- Running the per-renderable step a second time with the same tree and
arguments reproduces the same renderable and the same side effects. -/
theorem startFrameStep_idem (tree : TransformTree) (ct : Time) (rf ff : FrameId)
    (k : String) (r : Renderable) :
    startFrameStep tree ct rf ff k (startFrameStep tree ct rf ff k r).1 =
      startFrameStep tree ct rf ff k r := by
  cases hv : r.userData.settings.visible
  · simp [startFrameStep, hv]
  · cases hfl : r.userData.settings.frameLocked.getD true
    · cases h1 : tree.lookup r.userData.frameId r.userData.messageTime ff ct <;>
        cases h2 : tree.lookup ff ct rf ct <;>
          simp [startFrameStep, srcTimeOf, updatePose, hv, hfl, h1, h2]
    · cases h1 : tree.lookup r.userData.frameId ct ff ct <;>
        cases h2 : tree.lookup ff ct rf ct <;>
          simp [startFrameStep, srcTimeOf, updatePose, hv, hfl, h1, h2]

/-- Every error-sink event emitted by the per-renderable step targets that
renderable's own settings path. -/
theorem startFrameStep_touches (tree : TransformTree) (ct : Time) (rf ff : FrameId)
    (k : String) (r : Renderable) (p : Path) (kk : String) :
    ∀ ev ∈ (startFrameStep tree ct rf ff k r).2, evTouches p kk ev = true →
      r.userData.settingsPath = p := by
  intro ev hev ht
  cases hv : r.userData.settings.visible
  · rw [startFrameStep_invisible tree ct rf ff k r hv] at hev
    simp at hev
    subst hev
    exact of_decide_eq_true ht
  · cases hok : (updatePose r tree rf ff r.userData.frameId ct (srcTimeOf r ct)).2.1
    · rw [startFrameStep_visible_fail tree ct rf ff k r hv hok] at hev
      simp at hev
      rcases hev with hev | hev | hev | hev
      · subst hev; exact absurd ht (by simp [evTouches])
      · subst hev; exact absurd ht (by simp [evTouches])
      · subst hev; exact absurd ht (by simp [evTouches])
      · subst hev; exact (of_decide_eq_true ht).1
    · rw [startFrameStep_visible_ok tree ct rf ff k r hv hok] at hev
      simp at hev
      rcases hev with hev | hev | hev | hev
      · subst hev; exact absurd ht (by simp [evTouches])
      · subst hev; exact absurd ht (by simp [evTouches])
      · subst hev; exact absurd ht (by simp [evTouches])
      · subst hev; exact (of_decide_eq_true ht).1

/-- Every Pose-Updater invocation recorded by the per-renderable step carries
that renderable's key, requires it to be visible, and passes exactly the frame
arguments, the current time and the `frameLocked`-selected source time. -/
theorem startFrameStep_poseCall (tree : TransformTree) (ct : Time) (rf ff : FrameId)
    (k : String) (r : Renderable) :
    ∀ ev ∈ (startFrameStep tree ct rf ff k r).2,
      ∀ k' rf' ff' fid' ct' st', ev = Event.poseUpdateCall k' rf' ff' fid' ct' st' →
        k' = k ∧ r.userData.settings.visible = true ∧ rf' = rf ∧ ff' = ff ∧
          fid' = r.userData.frameId ∧ ct' = ct ∧ st' = srcTimeOf r ct := by
  intro ev hev k' rf' ff' fid' ct' st' hev'
  subst hev'
  cases hv : r.userData.settings.visible
  · rw [startFrameStep_invisible tree ct rf ff k r hv] at hev
    simp at hev
  · cases hok : (updatePose r tree rf ff r.userData.frameId ct (srcTimeOf r ct)).2.1
    · rw [startFrameStep_visible_fail tree ct rf ff k r hv hok] at hev
      simp at hev
      exact ⟨hev.1, rfl, hev.2.1, hev.2.2.1, hev.2.2.2.1, hev.2.2.2.2.1, hev.2.2.2.2.2⟩
    · rw [startFrameStep_visible_ok tree ct rf ff k r hv hok] at hev
      simp at hev
      exact ⟨hev.1, rfl, hev.2.1, hev.2.2.1, hev.2.2.2.1, hev.2.2.2.2.1, hev.2.2.2.2.2⟩

/-- A visible renderable's step does invoke the Pose Updater, with the
`frameLocked`-selected source time. -/
theorem startFrameStep_poseCall_mem (tree : TransformTree) (ct : Time) (rf ff : FrameId)
    (k : String) (r : Renderable) (hv : r.userData.settings.visible = true) :
    Event.poseUpdateCall k rf ff r.userData.frameId ct (srcTimeOf r ct) ∈
      (startFrameStep tree ct rf ff k r).2 := by
  cases hok : (updatePose r tree rf ff r.userData.frameId ct (srcTimeOf r ct)).2.1
  · rw [startFrameStep_visible_fail tree ct rf ff k r hv hok]
    simp
  · rw [startFrameStep_visible_ok tree ct rf ff k r hv hok]
    simp

/-! ### Decomposition of `startFrame` -/

theorem startFrame_renderables (ext : SceneExtension) (st : RendererState)
    (ct : Time) (rf ff : FrameId) :
    (ext.startFrame st ct rf ff).1.renderables =
      ext.renderables.map
        (fun kr => (kr.1, (startFrameStep st.transformTree ct rf ff kr.1 kr.2).1)) := by
  simp [SceneExtension.startFrame, List.map_map]

theorem startFrame_trace (ext : SceneExtension) (st : RendererState)
    (ct : Time) (rf ff : FrameId) :
    (ext.startFrame st ct rf ff).2.2 =
      ext.renderables.flatMap
        (fun kr => (startFrameStep st.transformTree ct rf ff kr.1 kr.2).2) := by
  show (ext.renderables.map _).flatMap _ = _
  rw [flatMap_map]

theorem startFrame_errors (ext : SceneExtension) (st : RendererState)
    (ct : Time) (rf ff : FrameId) :
    (ext.startFrame st ct rf ff).2.1.settings.errors =
      replayErrors ((ext.startFrame st ct rf ff).2.2) st.settings.errors := rfl

theorem startFrame_st_frame (ext : SceneExtension) (st : RendererState)
    (ct : Time) (rf ff : FrameId) :
    (ext.startFrame st ct rf ff).2.1.transformTree = st.transformTree ∧
      (ext.startFrame st ct rf ff).2.1.config = st.config ∧
      (ext.startFrame st ct rf ff).2.1.settings.nodesByKey = st.settings.nodesByKey ∧
      (ext.startFrame st ct rf ff).1.extensionId = ext.extensionId ∧
      (ext.startFrame st ct rf ff).1.children = ext.children ∧
      (ext.startFrame st ct rf ff).1.settingsNodesFn = ext.settingsNodesFn :=
  ⟨rfl, rfl, rfl, rfl, rfl, rfl⟩

/-! ### Point effects of the sink operations -/

theorem find?_filter_none {α : Type} (pr keep : α → Bool)
    (h : ∀ x, pr x = true → keep x = false) :
    ∀ l : List α, (l.filter keep).find? pr = none := by
  intro l
  induction l with
  | nil => rfl
  | cons a l ih =>
    cases hk : keep a
    · simp [List.filter_cons, hk, ih]
    · have hp : pr a = false := by
        cases hpa : pr a
        · rfl
        · rw [h a hpa] at hk
          exact absurd hk (by simp)
      simp [List.filter_cons, hk, List.find?_cons, hp, ih]

theorem filter_filter_nil {α : Type} (pr keep : α → Bool)
    (h : ∀ x, pr x = true → keep x = false) (l : List α) :
    (l.filter keep).filter pr = [] := by
  rw [filter_filter_and]
  apply List.filter_eq_nil_iff.mpr
  intro a _
  cases hpa : pr a
  · simp
  · simp [h a hpa]

theorem getAt_add (e : LayerErrors) (p : Path) (k m : String) :
    (e.add p k m).getAt p k = some m := by
  simp [LayerErrors.add, LayerErrors.getAt, List.find?_cons]

theorem countAt_add (e : LayerErrors) (p : Path) (k m : String) :
    (e.add p k m).countAt p k = 1 := by
  have hnil := filter_filter_nil
    (fun x : ErrorEntry => decide (x.path = p ∧ x.kind = k))
    (fun x : ErrorEntry => !decide (x.path = p ∧ x.kind = k))
    (fun x hx => by simp [hx]) e.entries
  simp [LayerErrors.add, LayerErrors.countAt, List.filter_cons, hnil]

theorem getAt_remove (e : LayerErrors) (p : Path) (k : String) :
    (e.remove p k).getAt p k = none := by
  have hnone := find?_filter_none
    (fun x : ErrorEntry => decide (x.path = p ∧ x.kind = k))
    (fun x : ErrorEntry => !decide (x.path = p ∧ x.kind = k))
    (fun x hx => by simp [hx]) e.entries
  simp [LayerErrors.remove, LayerErrors.getAt, hnone]
  tauto

theorem countAt_remove (e : LayerErrors) (p : Path) (k : String) :
    (e.remove p k).countAt p k = 0 := by
  have hnil := filter_filter_nil
    (fun x : ErrorEntry => decide (x.path = p ∧ x.kind = k))
    (fun x : ErrorEntry => !decide (x.path = p ∧ x.kind = k))
    (fun x hx => by simp [hx]) e.entries
  simp [LayerErrors.remove, LayerErrors.countAt, hnil]

theorem getAt_clearPath (e : LayerErrors) (p : Path) (k : String) :
    (e.clearPath p).getAt p k = none := by
  have hnone := find?_filter_none
    (fun x : ErrorEntry => decide (x.path = p ∧ x.kind = k))
    (fun x : ErrorEntry => !decide (x.path = p))
    (fun x hx => by simp [(of_decide_eq_true hx).1]) e.entries
  simp [LayerErrors.clearPath, LayerErrors.getAt, hnone]
  tauto

theorem countAt_clearPath (e : LayerErrors) (p : Path) (k : String) :
    (e.clearPath p).countAt p k = 0 := by
  have hnil := filter_filter_nil
    (fun x : ErrorEntry => decide (x.path = p ∧ x.kind = k))
    (fun x : ErrorEntry => !decide (x.path = p))
    (fun x hx => by simp [(of_decide_eq_true hx).1]) e.entries
  simp [LayerErrors.clearPath, LayerErrors.countAt, hnil]
  tauto

/-! ### Uniqueness helpers and localization of the error-sink effect -/

theorem flatMap_congr {α β : Type} (l : List α) (f g : α → List β)
    (h : ∀ a ∈ l, f a = g a) : l.flatMap f = l.flatMap g := by
  induction l with
  | nil => rfl
  | cons a l ih =>
    rw [List.flatMap_cons, List.flatMap_cons, h a (List.mem_cons_self a l),
      ih (fun x hx => h x (List.mem_cons_of_mem a hx))]

theorem map_congr_mem {α β : Type} (l : List α) (f g : α → β)
    (h : ∀ a ∈ l, f a = g a) : l.map f = l.map g := by
  induction l with
  | nil => rfl
  | cons a l ih =>
    rw [List.map_cons, List.map_cons, h a (List.mem_cons_self a l),
      ih (fun x hx => h x (List.mem_cons_of_mem a hx))]

/-- In a renderable map with `Nodup` keys (a JS `Map`), a key determines its
renderable. -/
theorem keys_unique : ∀ (l : List (String × Renderable)),
    (l.map Prod.fst).Nodup →
    ∀ (k : String) (a b : Renderable), (k, a) ∈ l → (k, b) ∈ l → a = b := by
  intro l
  induction l with
  | nil =>
    intro _ k a b ha _
    cases ha
  | cons x l ih =>
    intro hk k a b ha hb
    rw [List.map_cons] at hk
    rcases List.nodup_cons.mp hk with ⟨hx, hl⟩
    rcases List.mem_cons.mp ha with ha | ha <;> rcases List.mem_cons.mp hb with hb | hb
    · exact congrArg Prod.snd (ha.trans hb.symm)
    · exfalso
      apply hx
      rw [← ha]
      simpa using List.mem_map_of_mem Prod.fst hb
    · exfalso
      apply hx
      rw [← hb]
      simpa using List.mem_map_of_mem Prod.fst ha
    · exact ih hl k a b ha hb

/-- When the settings paths of all renderables are distinct, the entries on
either side of a given renderable have a different path from it. -/
theorem paths_split (l₁ l₂ : List (String × Renderable)) (k : String) (r : Renderable)
    (hnodup : ((l₁ ++ (k, r) :: l₂).map (fun kr => kr.2.userData.settingsPath)).Nodup) :
    (∀ kr ∈ l₁, kr.2.userData.settingsPath ≠ r.userData.settingsPath) ∧
      (∀ kr ∈ l₂, kr.2.userData.settingsPath ≠ r.userData.settingsPath) := by
  rw [List.map_append, List.map_cons] at hnodup
  rcases List.nodup_append.mp hnodup with ⟨h1, h2, hdisj⟩
  rcases List.nodup_cons.mp h2 with ⟨hnm, _⟩
  constructor
  · intro kr hm heq
    exact hdisj (List.mem_map_of_mem _ hm) (by rw [heq]; exact List.mem_cons_self _ _)
  · intro kr hm heq
    exact hnm (heq ▸ List.mem_map_of_mem (fun kr => kr.2.userData.settingsPath) hm)

/-- In `startFrame`, when no other renderable shares this renderable's settings
path, the final error-sink cell at that path is decided by this renderable's
own step: the steps of the renderables after it never touch the cell. -/
theorem startFrame_errors_local (ext : SceneExtension) (st : RendererState)
    (ct : Time) (rf ff : FrameId) (l₁ l₂ : List (String × Renderable))
    (k : String) (r : Renderable)
    (hsplit : ext.renderables = l₁ ++ (k, r) :: l₂)
    (hpaths : (ext.renderables.map (fun kr => kr.2.userData.settingsPath)).Nodup)
    (kk : String) :
    ((ext.startFrame st ct rf ff).2.1.settings.errors.getAt r.userData.settingsPath kk =
        (replayErrors ((startFrameStep st.transformTree ct rf ff k r).2)
          (replayErrors
            (l₁.flatMap (fun kr => (startFrameStep st.transformTree ct rf ff kr.1 kr.2).2))
            st.settings.errors)).getAt r.userData.settingsPath kk) ∧
      ((ext.startFrame st ct rf ff).2.1.settings.errors.countAt r.userData.settingsPath kk =
        (replayErrors ((startFrameStep st.transformTree ct rf ff k r).2)
          (replayErrors
            (l₁.flatMap (fun kr => (startFrameStep st.transformTree ct rf ff kr.1 kr.2).2))
            st.settings.errors)).countAt r.userData.settingsPath kk) := by
  have hp2 := (paths_split l₁ l₂ k r (hsplit ▸ hpaths)).2
  rw [startFrame_errors, startFrame_trace, hsplit, List.flatMap_append, List.flatMap_cons,
    replayErrors_append, replayErrors_append]
  exact replayErrors_untouched _ _ _
    (fun ev hev => by
      rcases List.mem_flatMap.mp hev with ⟨kr, hkr, hevst⟩
      cases hto : evTouches r.userData.settingsPath kk ev
      · rfl
      · exact absurd
          (startFrameStep_touches st.transformTree ct rf ff kr.1 kr.2
            r.userData.settingsPath kk ev hevst hto)
          (hp2 kr hkr)) _



/-! ### The claims about `startFrame` -/

/-- **C1.** In `startFrame`, for every visible renderable (whose settings path
is not shared with another renderable): if the Pose Updater reports failure, a
`MISSING_TRANSFORM` error is present at that renderable's settings path with
exactly one current entry (add/replace, never duplicated), whose message is
`missingTransformMessage renderFrameId fixedFrameId frameId` — a string that
names the renderable's own frame, the render frame and the fixed frame; if the
updater reports success, the `MISSING_TRANSFORM` error at that path is
removed. -/
theorem startFrame_missingTransform_add_remove
    (ext : SceneExtension) (st : RendererState) (ct : Time) (rf ff : FrameId)
    (k : String) (r : Renderable)
    (hmem : (k, r) ∈ ext.renderables)
    (hpaths : (ext.renderables.map (fun kr => kr.2.userData.settingsPath)).Nodup)
    (hv : r.userData.settings.visible = true) :
    ((updatePose r st.transformTree rf ff r.userData.frameId ct (srcTimeOf r ct)).2.1 = false →
      (ext.startFrame st ct rf ff).2.1.settings.errors.getAt r.userData.settingsPath
          MISSING_TRANSFORM = some (missingTransformMessage rf ff r.userData.frameId) ∧
      (ext.startFrame st ct rf ff).2.1.settings.errors.countAt r.userData.settingsPath
          MISSING_TRANSFORM = 1) ∧
    ((updatePose r st.transformTree rf ff r.userData.frameId ct (srcTimeOf r ct)).2.1 = true →
      (ext.startFrame st ct rf ff).2.1.settings.errors.getAt r.userData.settingsPath
          MISSING_TRANSFORM = none ∧
      (ext.startFrame st ct rf ff).2.1.settings.errors.countAt r.userData.settingsPath
          MISSING_TRANSFORM = 0) ∧
    (∃ s1 s2 s3 s4 : String,
      missingTransformMessage rf ff r.userData.frameId =
        s1 ++ r.userData.frameId ++ s2 ++ rf ++ s3 ++ ff ++ s4) := by
  obtain ⟨l₁, l₂, hsplit⟩ := List.append_of_mem hmem
  have hloc := startFrame_errors_local ext st ct rf ff l₁ l₂ k r hsplit hpaths MISSING_TRANSFORM
  refine ⟨fun hfail => ⟨?_, ?_⟩, fun hok => ⟨?_, ?_⟩, ?_⟩
  · rw [hloc.1, startFrameStep_visible_fail st.transformTree ct rf ff k r hv hfail]
    exact getAt_add _ _ _ _
  · rw [hloc.2, startFrameStep_visible_fail st.transformTree ct rf ff k r hv hfail]
    exact countAt_add _ _ _ _
  · rw [hloc.1, startFrameStep_visible_ok st.transformTree ct rf ff k r hv hok]
    exact getAt_remove _ _ _
  · rw [hloc.2, startFrameStep_visible_ok st.transformTree ct rf ff k r hv hok]
    exact countAt_remove _ _ _
  · exact ⟨"Missing transform from frame <", "> to frame <", "> (fixed frame <", ">)", rfl⟩

/-- **C2.** In `startFrame`, every visible renderable gets exactly the
`frameLocked`-selected source time passed to the Pose Updater: the trace
contains its `poseUpdateCall` with source time `srcTimeOf r currentTime`, any
`poseUpdateCall` bearing its key carries that same source time, and
`srcTimeOf` equals `currentTime` when `frameLocked` is unset or `true` and the
renderable's own `messageTime` when `frameLocked` is `false`. -/
theorem startFrame_srcTime_frameLocked
    (ext : SceneExtension) (st : RendererState) (ct : Time) (rf ff : FrameId)
    (k : String) (r : Renderable)
    (hmem : (k, r) ∈ ext.renderables)
    (hkeys : (ext.renderables.map Prod.fst).Nodup)
    (hv : r.userData.settings.visible = true) :
    (Event.poseUpdateCall k rf ff r.userData.frameId ct (srcTimeOf r ct) ∈
        (ext.startFrame st ct rf ff).2.2) ∧
    (∀ rf' ff' fid' ct' st',
        Event.poseUpdateCall k rf' ff' fid' ct' st' ∈ (ext.startFrame st ct rf ff).2.2 →
          st' = srcTimeOf r ct) ∧
    ((r.userData.settings.frameLocked = none ∨ r.userData.settings.frameLocked = some true) →
        srcTimeOf r ct = ct) ∧
    (r.userData.settings.frameLocked = some false →
        srcTimeOf r ct = r.userData.messageTime) := by
  refine ⟨?_, ?_, ?_, ?_⟩
  · rw [startFrame_trace]
    exact List.mem_flatMap.mpr
      ⟨(k, r), hmem, startFrameStep_poseCall_mem st.transformTree ct rf ff k r hv⟩
  · intro rf' ff' fid' ct' st' hmem'
    rw [startFrame_trace] at hmem'
    rcases List.mem_flatMap.mp hmem' with ⟨kr, hkr, hevst⟩
    have hchar := startFrameStep_poseCall st.transformTree ct rf ff kr.1 kr.2 _ hevst
      k rf' ff' fid' ct' st' rfl
    have hkey : kr.1 = k := hchar.1.symm
    have hr : kr.2 = r := by
      apply keys_unique ext.renderables hkeys k kr.2 r _ hmem
      rw [← hkey]
      exact hkr
    rw [← hr]
    exact hchar.2.2.2.2.2.2
  · intro hfl
    rcases hfl with hfl | hfl <;> simp [srcTimeOf, hfl]
  · intro hfl
    simp [srcTimeOf, hfl]

/-- **C3.** In `startFrame`, every renderable whose persisted
`settings.visible` is `false` is skipped: its per-renderable step consists of
exactly one `clearPath` on its settings path (so the Transform Tree is never
queried for it and the Pose Updater is never invoked on it), no
`poseUpdateCall` with its key appears anywhere in the trace, the renderable is
carried over with only its object-level `visible` flag lowered (pose
untouched), and afterwards the error sink holds no error of any kind — in
particular no `MISSING_TRANSFORM` — at its settings path. -/
theorem startFrame_invisible_skips_and_clears
    (ext : SceneExtension) (st : RendererState) (ct : Time) (rf ff : FrameId)
    (k : String) (r : Renderable)
    (hmem : (k, r) ∈ ext.renderables)
    (hpaths : (ext.renderables.map (fun kr => kr.2.userData.settingsPath)).Nodup)
    (hkeys : (ext.renderables.map Prod.fst).Nodup)
    (hv : r.userData.settings.visible = false) :
    (startFrameStep st.transformTree ct rf ff k r =
        ({ r with visible := false }, [Event.errorClearPath r.userData.settingsPath])) ∧
    (∀ rf' ff' fid' ct' st',
        Event.poseUpdateCall k rf' ff' fid' ct' st' ∉ (ext.startFrame st ct rf ff).2.2) ∧
    ((k, { r with visible := false }) ∈ (ext.startFrame st ct rf ff).1.renderables) ∧
    (∀ kk, (ext.startFrame st ct rf ff).2.1.settings.errors.getAt
        r.userData.settingsPath kk = none) := by
  refine ⟨startFrameStep_invisible st.transformTree ct rf ff k r hv, ?_, ?_, ?_⟩
  · intro rf' ff' fid' ct' st' hmem'
    rw [startFrame_trace] at hmem'
    rcases List.mem_flatMap.mp hmem' with ⟨kr, hkr, hevst⟩
    have hchar := startFrameStep_poseCall st.transformTree ct rf ff kr.1 kr.2 _ hevst
      k rf' ff' fid' ct' st' rfl
    have hkey : kr.1 = k := hchar.1.symm
    have hr : kr.2 = r := by
      apply keys_unique ext.renderables hkeys k kr.2 r _ hmem
      rw [← hkey]
      exact hkr
    rw [hr] at hchar
    rw [hv] at hchar
    exact absurd hchar.2.1 (by simp)
  · rw [startFrame_renderables]
    have hm := List.mem_map_of_mem
      (fun kr : String × Renderable =>
        (kr.1, (startFrameStep st.transformTree ct rf ff kr.1 kr.2).1)) hmem
    simpa [startFrameStep_invisible st.transformTree ct rf ff k r hv] using hm
  · intro kk
    obtain ⟨l₁, l₂, hsplit⟩ := List.append_of_mem hmem
    have hloc := startFrame_errors_local ext st ct rf ff l₁ l₂ k r hsplit hpaths kk
    rw [hloc.1, startFrameStep_invisible st.transformTree ct rf ff k r hv]
    exact getAt_clearPath _ _ _

/-- **C5.** A missing transform is never fatal: `startFrame` is a total
function whose output renderable map is the pointwise image of the
per-renderable step, so one renderable's pose-update failure cannot prevent
any other renderable from being updated in the same call, and a renderable
whose Pose-Updater invocation fails keeps its previous resolved pose. -/
theorem startFrame_failure_isolated_nonfatal :
    ∀ (ext : SceneExtension) (st : RendererState) (ct : Time) (rf ff : FrameId),
      ((ext.startFrame st ct rf ff).1.renderables =
        ext.renderables.map
          (fun kr => (kr.1, (startFrameStep st.transformTree ct rf ff kr.1 kr.2).1))) ∧
      (∀ k r, (k, r) ∈ ext.renderables →
        (updatePose r st.transformTree rf ff r.userData.frameId ct (srcTimeOf r ct)).2.1
            = false →
          (startFrameStep st.transformTree ct rf ff k r).1.renderPose = r.renderPose) := by
  intro ext st ct rf ff
  refine ⟨startFrame_renderables ext st ct rf ff, ?_⟩
  intro k r _ hfail
  cases hv : r.userData.settings.visible
  · rw [startFrameStep_invisible st.transformTree ct rf ff k r hv]
  · rw [startFrameStep_visible_fail st.transformTree ct rf ff k r hv hfail]

/-- **C4.** `startFrame` is idempotent: calling it twice with identical
arguments (the renderer state it returns keeps the Transform Tree unchanged,
as `startFrame` never mutates the tree) leaves every renderable — in
particular every pose — and the entire error-sink state identical after the
second call to what they were after the first call. -/
theorem startFrame_idempotent :
    ∀ (ext : SceneExtension) (st : RendererState) (ct : Time) (rf ff : FrameId),
      (((ext.startFrame st ct rf ff).1.startFrame (ext.startFrame st ct rf ff).2.1
          ct rf ff).1.renderables = (ext.startFrame st ct rf ff).1.renderables) ∧
      (((ext.startFrame st ct rf ff).1.startFrame (ext.startFrame st ct rf ff).2.1
          ct rf ff).2.1.settings.errors = (ext.startFrame st ct rf ff).2.1.settings.errors) := by
  intro ext st ct rf ff
  have htree : ((ext.startFrame st ct rf ff).2.1).transformTree = st.transformTree := rfl
  constructor
  · rw [startFrame_renderables, htree, startFrame_renderables, List.map_map]
    apply map_congr_mem
    intro kr _
    simp only [Function.comp_apply]
    rw [startFrameStep_idem]
  · have htr2 : ((ext.startFrame st ct rf ff).1.startFrame (ext.startFrame st ct rf ff).2.1
        ct rf ff).2.2 = (ext.startFrame st ct rf ff).2.2 := by
      rw [startFrame_trace, htree, startFrame_renderables, flatMap_map, startFrame_trace]
      apply flatMap_congr
      intro kr _
      simp only []
      rw [startFrameStep_idem]
    rw [startFrame_errors, htr2, startFrame_errors]
    exact replayErrors_idem _ _

theorem getNodes_set (s : SettingsManager) (key : String) (nodes : List SettingsTreeEntry) :
    (s.setNodesForKey key nodes).getNodesForKey key = some nodes := by
  simp [SettingsManager.setNodesForKey, SettingsManager.getNodesForKey, List.find?_cons]

/-! ### The claims about lifecycle and settings operations -/

/-- **C6.** After `dispose()`, every previously owned renderable has had its
`dispose()` called (the trace holds a `disposeRenderable` event for its key),
the renderable mapping is empty, and no renderable remains a child node: the
child list is reset to empty, so no disposed renderable's node stays
attached. -/
theorem dispose_disposes_all_and_clears :
    ∀ (ext : SceneExtension) (st : RendererState),
      ((ext.dispose st).1.renderables = []) ∧
      ((ext.dispose st).1.children = []) ∧
      (∀ k r, (k, r) ∈ ext.renderables →
        Event.disposeRenderable k ∈ (ext.dispose st).2.2) ∧
      (∀ k r, (k, r) ∈ ext.renderables → r.nodeId ∉ (ext.dispose st).1.children) := by
  intro ext st
  refine ⟨rfl, rfl, ?_, ?_⟩
  · intro k r hmem
    exact List.mem_map_of_mem (fun kr => Event.disposeRenderable kr.1) hmem
  · intro k r _
    simp [SceneExtension.dispose]

/-- **C7.** `removeAllRenderables()` disposes and detaches every owned
renderable and clears the renderable mapping, and only after the removals
pushes the refreshed settings nodes — computed from the now-empty renderable
map — to the settings sink via `updateSettingsTree()`: the trace is exactly
the disposal/detach events followed by the single `setNodes` push. -/
theorem removeAllRenderables_clears_then_refreshes :
    ∀ (ext : SceneExtension) (st : RendererState),
      ((ext.removeAllRenderables st).1.renderables = []) ∧
      (∀ k r, (k, r) ∈ ext.renderables →
        Event.disposeRenderable k ∈ (ext.removeAllRenderables st).2.2 ∧
          Event.removeChild r.nodeId ∈ (ext.removeAllRenderables st).2.2) ∧
      ((ext.removeAllRenderables st).2.1.settings.getNodesForKey ext.extensionId =
        some (ext.settingsNodesFn [] st.config)) ∧
      ((ext.removeAllRenderables st).2.2 =
        ext.renderables.flatMap
          (fun kr => [Event.disposeRenderable kr.1, Event.removeChild kr.2.nodeId]) ++
          [Event.setNodes ext.extensionId (ext.settingsNodesFn [] st.config)]) := by
  intro ext st
  refine ⟨rfl, ?_, ?_, rfl⟩
  · intro k r hmem
    constructor
    · exact List.mem_append_left _
        (List.mem_flatMap.mpr ⟨(k, r), hmem, by simp⟩)
    · exact List.mem_append_left _
        (List.mem_flatMap.mpr ⟨(k, r), hmem, by simp⟩)
  · exact getNodes_set st.settings ext.extensionId (ext.settingsNodesFn [] st.config)

/-- **C8.** `saveSetting(path, value)` writes `value` into the panel
configuration at `path`, deleting the key entirely when `value` is `undefined`
or `null` (the key ends up absent), and the configuration write happens
strictly before `updateSettingsTree()`: the trace is the configuration event
followed by the settings push, and the nodes pushed to the sink are computed
from the already-updated configuration. -/
theorem saveSetting_writes_config_before_refresh :
    ∀ (ext : SceneExtension) (st : RendererState) (path : Path) (value : JSValue),
      (value.isNullish = true →
        configGet (ext.saveSetting st path value).1.config path = none) ∧
      (value.isNullish = false →
        configGet (ext.saveSetting st path value).1.config path = some value) ∧
      ((ext.saveSetting st path value).1.settings.getNodesForKey ext.extensionId =
        some (ext.settingsNodesFn ext.renderables (ext.saveSetting st path value).1.config)) ∧
      ((ext.saveSetting st path value).2 =
        (if value.isNullish then Event.configUnset path else Event.configSet path value) ::
          [Event.setNodes ext.extensionId
            (ext.settingsNodesFn ext.renderables (ext.saveSetting st path value).1.config)]) := by
  intro ext st path value
  refine ⟨?_, ?_, ?_, ?_⟩
  · intro hnull
    have hnone := find?_filter_none
      (fun e : Path × JSValue => decide (e.1 = path))
      (fun e : Path × JSValue => !decide (e.1 = path))
      (fun x hx => by simp [hx]) st.config
    show (Option.map _ (List.find? _ (if value.isNullish then _ else _))) = none
    rw [hnull]
    simp only [if_pos rfl]
    show (Option.map (fun e : Path × JSValue => e.2)
      (List.find? (fun e : Path × JSValue => decide (e.1 = path))
        (configUnset st.config path))) = none
    rw [show configUnset st.config path =
      st.config.filter (fun e : Path × JSValue => !decide (e.1 = path)) from rfl, hnone]
    rfl
  · intro hnn
    show configGet (if value.isNullish then _ else _) path = some value
    rw [hnn]
    simp [configGet, configSet, List.find?_cons]
  · exact getNodes_set st.settings ext.extensionId _
  · rfl

/-- **C9.** The settings-tree refresh scheduled in the constructor is
deferred: the constructor leaves the renderer untouched and only queues one
microtask, the drain that the host performs after the constructing task
unwinds publishes this extension's settings contribution, and a host frame
first drains the microtask queue and only then calls `startFrame` — so the
first `startFrame` never observes the un-initialized settings sink. -/
theorem constructor_defers_settings_refresh :
    ∀ (extensionId : String)
      (fn : List (String × Renderable) → List (Path × JSValue) → List SettingsTreeEntry)
      (st : RendererState) (ct : Time) (rf ff : FrameId),
      ((constructSceneExtension extensionId fn st).renderer = st) ∧
      ((constructSceneExtension extensionId fn st).microtasks =
        [Microtask.deferredUpdateSettingsTree]) ∧
      ((drainMicrotasks
          (constructSceneExtension extensionId fn st)).renderer.settings.getNodesForKey
            extensionId = some (fn [] st.config)) ∧
      (hostRenderFrame (constructSceneExtension extensionId fn st) ct rf ff =
        (let w1 := drainMicrotasks (constructSceneExtension extensionId fn st)
         let res := w1.ext.startFrame w1.renderer ct rf ff
         ({ w1 with ext := res.1, renderer := res.2.1 }, res.2.2))) := by
  intro extensionId fn st ct rf ff
  exact ⟨rfl, rfl, getNodes_set st.settings extensionId (fn [] st.config), rfl⟩

/-- **C10.** Neither `dispose()` nor `removeAllRenderables()` touches the
error sink: the error-sink state after either teardown operation is exactly
the state before it, so any `MISSING_TRANSFORM` errors previously reported at
a disposed renderable's settings path remain in the sink. -/
theorem teardown_preserves_error_sink :
    ∀ (ext : SceneExtension) (st : RendererState),
      ((ext.dispose st).2.1.settings.errors = st.settings.errors) ∧
      ((ext.removeAllRenderables st).2.1.settings.errors = st.settings.errors) := by
  intro ext st
  exact ⟨rfl, rfl⟩

/-! ### Concrete instantiations of the claims -/

/-- `startFrame_missingTransform_add_remove` exercised on a concrete scene:
with an empty Transform Tree the visible renderable ends up with exactly one
`MISSING_TRANSFORM` error whose message names all three frames. -/
theorem startFrame_missingTransform_add_remove_witness :
    (extW.startFrame stEmpty 1000 "base_link" "map").2.1.settings.errors.getAt
        rLidar.userData.settingsPath MISSING_TRANSFORM =
      some (missingTransformMessage "base_link" "map" rLidar.userData.frameId) ∧
    (extW.startFrame stEmpty 1000 "base_link" "map").2.1.settings.errors.countAt
        rLidar.userData.settingsPath MISSING_TRANSFORM = 1 :=
  (startFrame_missingTransform_add_remove extW stEmpty 1000 "base_link" "map" "lidar" rLidar
      (by decide) (by decide) (by decide)).1 (by decide)

/-- `startFrame_srcTime_frameLocked` exercised: the frame-locked renderable's
Pose-Updater call carries the current time as source time. -/
theorem startFrame_srcTime_frameLocked_witness :
    Event.poseUpdateCall "lidar" "base_link" "map" rLidar.userData.frameId 1000
        (srcTimeOf rLidar 1000) ∈ (extW.startFrame stEmpty 1000 "base_link" "map").2.2 :=
  (startFrame_srcTime_frameLocked extW stEmpty 1000 "base_link" "map" "lidar" rLidar
      (by decide) (by decide) (by decide)).1

/-- `startFrame_invisible_skips_and_clears` exercised: the hidden renderable's
pre-existing stale `MISSING_TRANSFORM` error is cleared by `startFrame`. -/
theorem startFrame_invisible_skips_and_clears_witness :
    (extW.startFrame stEmpty 1000 "base_link" "map").2.1.settings.errors.getAt
        rHidden.userData.settingsPath MISSING_TRANSFORM = none :=
  (startFrame_invisible_skips_and_clears extW stEmpty 1000 "base_link" "map" "hidden" rHidden
      (by decide) (by decide) (by decide) (by decide)).2.2.2 MISSING_TRANSFORM

/-- `startFrame_failure_isolated_nonfatal` exercised: after a failed pose
resolution the renderable keeps its previous resolved pose. -/
theorem startFrame_failure_isolated_nonfatal_witness :
    (startFrameStep stEmpty.transformTree 1000 "base_link" "map" "lidar" rLidar).1.renderPose =
      rLidar.renderPose :=
  (startFrame_failure_isolated_nonfatal extW stEmpty 1000 "base_link" "map").2 "lidar" rLidar
    (by decide) (by decide)

/-- `dispose_disposes_all_and_clears` exercised: disposing the extension
disposes the owned renderable. -/
theorem dispose_disposes_all_and_clears_witness :
    Event.disposeRenderable "lidar" ∈ (extW.dispose stEmpty).2.2 :=
  (dispose_disposes_all_and_clears extW stEmpty).2.2.1 "lidar" rLidar (by decide)

/-- `removeAllRenderables_clears_then_refreshes` exercised: removal disposes
and detaches the hidden renderable. -/
theorem removeAllRenderables_clears_then_refreshes_witness :
    Event.disposeRenderable "hidden" ∈ (extW.removeAllRenderables stEmpty).2.2 ∧
      Event.removeChild rHidden.nodeId ∈ (extW.removeAllRenderables stEmpty).2.2 :=
  (removeAllRenderables_clears_then_refreshes extW stEmpty).2.1 "hidden" rHidden (by decide)

/-- `saveSetting_writes_config_before_refresh` exercised on the spec scenario:
`saveSetting(["visible"], false)` followed by
`saveSetting(["visible"], undefined)` leaves the key absent. -/
theorem saveSetting_writes_config_before_refresh_witness :
    configGet
        (extW.saveSetting (extW.saveSetting stEmpty ["visible"] (JSValue.boolV false)).1
          ["visible"] JSValue.undefinedV).1.config ["visible"] = none :=
  (saveSetting_writes_config_before_refresh extW
      (extW.saveSetting stEmpty ["visible"] (JSValue.boolV false)).1
      ["visible"] JSValue.undefinedV).1 (by decide)

end Fox
